import Mathlib

/-!
Verification of the postgresql-backup-manager restore-safety core against
its specification.  The definitions below are a shallow embedding of the
frontend restore logic (src/frontend/src/pages/Restore.tsx), the API client
(src/frontend/src/lib/api.ts) and the manual-backup dialog
(src/frontend/src/pages/Databases.tsx).  The backend Crypto Engine and
Retention Planner are not present under src/, so those two components are
modelled from the specification text, as marked on their definitions.
-/

namespace BackupManager

/-- Declared environment of a database record (`environment ∈ {prod, dev}`
on stored records; `unknown` is the value the frontend helpers produce when
no record is selected or found). -/
inductive Env
  | prod
  | dev
  | unknown
deriving DecidableEq, Repr

/-- The fields of a stored database record that the restore page consults:
its id (used by `find`) and its declared environment. -/
structure Db where
  id : String
  environment : Env
deriving DecidableEq, Repr

/-- The `customDb` inline-connection form state of Restore.tsx. -/
structure CustomDb where
  host : String
  port : Nat
  database : String
  username : String
  password : String
  ssl_mode : String
deriving DecidableEq, Repr

/-- The `targetType` state of Restore.tsx: restore into an existing stored
database, or into a custom inline connection. -/
inductive TargetType
  | existing
  | custom
deriving DecidableEq, Repr

/-- JavaScript `String.prototype.endsWith`, as used on backup keys
(`key.endsWith('.enc')`): a plain suffix test on the character
sequence. -/
def jsEndsWith (s sfx : String) : Bool :=
  List.isSuffixOf sfx.data s.data

/-- A backup object listed from S3: its storage key, size in bytes and
last-modified timestamp (milliseconds since epoch, as produced by
`new Date(...).getTime()`). -/
structure Backup where
  key : String
  size : Int
  last_modified : Int
deriving DecidableEq, Repr

/-- The component state of RestorePage that its handlers read. -/
structure RestoreState where
  selectedBackup : Option Backup
  targetType : TargetType
  selectedDbId : String
  customDb : CustomDb
  confirmProdRestore : Bool
  sourceDbId : String
  databases : List Db
  restorePending : Bool
  isPolling : Bool
deriving DecidableEq, Repr

/-- `getSourceEnv` of Restore.tsx: empty `sourceDbId` yields `unknown`,
otherwise the environment of the matching database record (or `unknown`
when no record matches). -/
def getSourceEnv (st : RestoreState) : Env :=
  if st.sourceDbId = "" then Env.unknown
  else
    match st.databases.find? (fun d => d.id == st.sourceDbId) with
    | some db => db.environment
    | none => Env.unknown

/-- `getTargetEnv` of Restore.tsx: only an existing-database target with a
non-empty selection resolves to the record's environment; in every other
case (in particular a custom inline connection) the result is `unknown`. -/
def getTargetEnv (st : RestoreState) : Env :=
  if st.targetType = TargetType.existing ∧ st.selectedDbId ≠ "" then
    match st.databases.find? (fun d => d.id == st.selectedDbId) with
    | some db => db.environment
    | none => Env.unknown
  else Env.unknown

/-- The `type` field of the warning object returned by
`getRestoreWarning`. -/
inductive WarningType
  | error
  | warning
deriving DecidableEq, Repr

/-- The warning object returned by `getRestoreWarning`. -/
structure Warning where
  type : WarningType
  message : String
deriving DecidableEq, Repr

/-- `getRestoreWarning` of Restore.tsx: dev → prod is a blocking error,
any other restore to prod is a confirmation warning, everything else
produces no warning. -/
def getRestoreWarning (st : RestoreState) : Option Warning :=
  let sourceEnv := getSourceEnv st
  let targetEnv := getTargetEnv st
  if sourceEnv = Env.dev ∧ targetEnv = Env.prod then
    some { type := WarningType.error,
           message := "Cannot restore dev backup to production. This would overwrite production data with test data." }
  else if targetEnv = Env.prod then
    some { type := WarningType.warning,
           message := "You are restoring to a production database. You must enter credentials manually and confirm this action." }
  else none

/-- `requiresManualCredentials` of Restore.tsx. -/
def requiresManualCredentials (st : RestoreState) : Bool :=
  getTargetEnv st == Env.prod

/-- The target-connection part of a restore request body: either the
`target_database_id` of a stored record, or the inline `target_db`
parameters. -/
inductive RestoreTarget
  | storedId (id : String)
  | inlineDb (db : CustomDb)
deriving DecidableEq, Repr

/-- The body of the POST /restore/from-s3 request produced by
`restoreMutation.mutate`. -/
structure RestoreRequest where
  s3_key : String
  target : RestoreTarget
  is_encrypted : Bool
  source_database_id : Option String
  confirm_prod_restore : Bool
deriving DecidableEq, Repr

/-- Observable outcome of one invocation of `handleRestore`: an alert with
an early return, the switch of the target form to custom credentials, or
an issued restore request. -/
inductive RestoreAction
  | alerted (msg : String)
  | switchToCustom
  | mutate (r : RestoreRequest)
deriving DecidableEq, Repr

/-- `handleRestore` of Restore.tsx, step for step: missing selection
alert, dev → prod block, production confirmation gate, then one of the
three mutation branches (manual credentials for prod, stored credentials
for an existing dev/unknown target, inline credentials for a custom
target). -/
def handleRestore (st : RestoreState) : RestoreAction :=
  match st.selectedBackup with
  | none => RestoreAction.alerted "Please select a backup to restore"
  | some backup =>
    let sourceEnv := getSourceEnv st
    let targetEnv := getTargetEnv st
    if sourceEnv = Env.dev ∧ targetEnv = Env.prod then
      RestoreAction.alerted "Cannot restore a dev backup to production database"
    else if targetEnv = Env.prod ∧ ¬ st.confirmProdRestore then
      RestoreAction.alerted "Please check the confirmation box to restore to production"
    else
      let isEncrypted := jsEndsWith backup.key ".enc"
      if requiresManualCredentials st then
        if st.targetType ≠ TargetType.custom then
          RestoreAction.switchToCustom
        else if st.customDb.host = "" ∨ st.customDb.database = "" ∨
                st.customDb.username = "" ∨ st.customDb.password = "" then
          RestoreAction.alerted "Please fill in all database connection fields"
        else
          RestoreAction.mutate
            { s3_key := backup.key
              target := RestoreTarget.inlineDb st.customDb
              is_encrypted := isEncrypted
              source_database_id := if st.sourceDbId = "" then none else some st.sourceDbId
              confirm_prod_restore := st.confirmProdRestore }
      else if st.targetType = TargetType.existing then
        if st.selectedDbId = "" then
          RestoreAction.alerted "Please select a target database"
        else
          RestoreAction.mutate
            { s3_key := backup.key
              target := RestoreTarget.storedId st.selectedDbId
              is_encrypted := isEncrypted
              source_database_id := if st.sourceDbId = "" then none else some st.sourceDbId
              confirm_prod_restore := false }
      else
        if st.customDb.host = "" ∨ st.customDb.database = "" ∨
           st.customDb.username = "" ∨ st.customDb.password = "" then
          RestoreAction.alerted "Please fill in all database connection fields"
        else
          RestoreAction.mutate
            { s3_key := backup.key
              target := RestoreTarget.inlineDb st.customDb
              is_encrypted := isEncrypted
              source_database_id := if st.sourceDbId = "" then none else some st.sourceDbId
              confirm_prod_restore := false }

/-- The `disabled` condition of the Restore Backup button in Restore.tsx. -/
def restoreButtonDisabled (st : RestoreState) : Bool :=
  st.selectedBackup.isNone || st.restorePending || st.isPolling ||
  (match getRestoreWarning st with
   | some w => w.type == WarningType.error
   | none => false) ||
  ((match getRestoreWarning st with
    | some w => w.type == WarningType.warning
    | none => false) && !st.confirmProdRestore)

end BackupManager

namespace BackupManager

/-- C1: whenever the declared source environment is dev and the declared
target environment is prod, the warning function returns the blocking
error, the restore button is disabled, and handleRestore never issues a
restore request — for every confirmation value, with no override. -/
theorem dev_to_prod_restore_blocked (st : RestoreState)
    (hs : getSourceEnv st = Env.dev) (ht : getTargetEnv st = Env.prod) :
    getRestoreWarning st =
      some { type := WarningType.error,
             message := "Cannot restore dev backup to production. This would overwrite production data with test data." } ∧
    restoreButtonDisabled st = true ∧
    ∀ r : RestoreRequest, handleRestore st ≠ RestoreAction.mutate r := by
  have hw : getRestoreWarning st =
      some { type := WarningType.error,
             message := "Cannot restore dev backup to production. This would overwrite production data with test data." } := by
    simp [getRestoreWarning, hs, ht]
  refine ⟨hw, ?_, ?_⟩
  · simp [restoreButtonDisabled, hw]
  · intro r
    cases hsel : st.selectedBackup with
    | none => simp [handleRestore, hsel]
    | some b => simp [handleRestore, hsel, hs, ht]

/-- A prod target environment can only arise from an existing-database
selection: `getTargetEnv` returns `unknown` for every custom target. -/
theorem targetEnv_prod_targetType (st : RestoreState)
    (ht : getTargetEnv st = Env.prod) : st.targetType = TargetType.existing := by
  by_contra h
  simp [getTargetEnv, h] at ht

/-- Spine lemma: a confirmed restore into a prod target (source not dev)
always exits `handleRestore` by switching the target form to custom
credentials, because a prod target environment forces `targetType =
existing` while the manual-credential branch demands `custom`. -/
theorem handleRestore_prod_confirmed_switch (st : RestoreState) (b : Backup)
    (hb : st.selectedBackup = some b) (ht : getTargetEnv st = Env.prod)
    (hs : getSourceEnv st ≠ Env.dev) (hc : st.confirmProdRestore = true) :
    handleRestore st = RestoreAction.switchToCustom := by
  have hex := targetEnv_prod_targetType st ht
  simp [handleRestore, hb, ht, hs, hc, requiresManualCredentials, hex]

/-- Spine lemma: with a custom target (whose environment is therefore not
prod) and a fully filled connection form, `handleRestore` issues the
inline-credential request of the custom branch. -/
theorem handleRestore_custom_mutate (st : RestoreState) (b : Backup)
    (hb : st.selectedBackup = some b) (htnp : getTargetEnv st ≠ Env.prod)
    (hcust : st.targetType = TargetType.custom)
    (hfields : ¬ (st.customDb.host = "" ∨ st.customDb.database = "" ∨
                  st.customDb.username = "" ∨ st.customDb.password = "")) :
    handleRestore st = RestoreAction.mutate
      { s3_key := b.key
        target := RestoreTarget.inlineDb st.customDb
        is_encrypted := jsEndsWith b.key ".enc"
        source_database_id := if st.sourceDbId = "" then none else some st.sourceDbId
        confirm_prod_restore := false } := by
  have hman : requiresManualCredentials st = false := by
    simp [requiresManualCredentials, htnp]
  simp [handleRestore, hb, htnp, hman, hcust, hfields]

/-- Spine lemma: with an existing non-prod target selected,
`handleRestore` issues the stored-credential request of the existing
branch. -/
theorem handleRestore_existing_mutate (st : RestoreState) (b : Backup)
    (hb : st.selectedBackup = some b) (htnp : getTargetEnv st ≠ Env.prod)
    (hex : st.targetType = TargetType.existing) (hid : st.selectedDbId ≠ "") :
    handleRestore st = RestoreAction.mutate
      { s3_key := b.key
        target := RestoreTarget.storedId st.selectedDbId
        is_encrypted := jsEndsWith b.key ".enc"
        source_database_id := if st.sourceDbId = "" then none else some st.sourceDbId
        confirm_prod_restore := false } := by
  have hman : requiresManualCredentials st = false := by
    simp [requiresManualCredentials, htnp]
  simp [handleRestore, hb, htnp, hman, hex, hid]

/-- Witness for C1 at a concrete state: source database declared dev,
target database declared prod, confirmation checked. -/
theorem dev_to_prod_restore_blocked_witness :
    let st : RestoreState :=
      { selectedBackup := some { key := "backups/app.dump.enc", size := 10, last_modified := 0 }
        targetType := TargetType.existing
        selectedDbId := "tgt"
        customDb := { host := "", port := 5432, database := "", username := "",
                      password := "", ssl_mode := "require" }
        confirmProdRestore := true
        sourceDbId := "src"
        databases := [{ id := "src", environment := Env.dev },
                      { id := "tgt", environment := Env.prod }]
        restorePending := false
        isPolling := false }
    getRestoreWarning st =
      some { type := WarningType.error,
             message := "Cannot restore dev backup to production. This would overwrite production data with test data." } ∧
    restoreButtonDisabled st = true ∧
    ∀ r : RestoreRequest, handleRestore st ≠ RestoreAction.mutate r :=
  dev_to_prod_restore_blocked _ (by decide) (by decide)

/-- C2: a restore to prod whose source is not dev, invoked with the
confirmation flag false, yields the pending-confirmation outcome — the
non-blocking warning plus the "check the confirmation box" alert, not the
blocking error — and issues no restore request; re-invoking the same state
with the confirmation flag true proceeds past both the block and the
confirmation gate (neither alert recurs). -/
theorem prod_restore_pending_confirmation (st : RestoreState) (b : Backup)
    (ht : getTargetEnv st = Env.prod) (hs : getSourceEnv st ≠ Env.dev)
    (hc : st.confirmProdRestore = false) (hb : st.selectedBackup = some b) :
    getRestoreWarning st =
      some { type := WarningType.warning,
             message := "You are restoring to a production database. You must enter credentials manually and confirm this action." } ∧
    handleRestore st =
      RestoreAction.alerted "Please check the confirmation box to restore to production" ∧
    (∀ r : RestoreRequest, handleRestore st ≠ RestoreAction.mutate r) ∧
    handleRestore { st with confirmProdRestore := true } ≠
      RestoreAction.alerted "Please check the confirmation box to restore to production" ∧
    handleRestore { st with confirmProdRestore := true } ≠
      RestoreAction.alerted "Cannot restore a dev backup to production database" := by
  have hw : getRestoreWarning st =
      some { type := WarningType.warning,
             message := "You are restoring to a production database. You must enter credentials manually and confirm this action." } := by
    simp [getRestoreWarning, ht, hs]
  have hstep : handleRestore { st with confirmProdRestore := true } =
      RestoreAction.switchToCustom :=
    handleRestore_prod_confirmed_switch { st with confirmProdRestore := true } b hb ht hs rfl
  refine ⟨hw, ?_, ?_, ?_, ?_⟩
  · simp [handleRestore, hb, ht, hs, hc]
  · intro r
    simp [handleRestore, hb, ht, hs, hc]
  · simp [hstep]
  · simp [hstep]

/-- Witness for C2 at a concrete state: prod → prod restore with the
confirmation box unchecked. -/
theorem prod_restore_pending_confirmation_witness :
    let st : RestoreState :=
      { selectedBackup := some { key := "backups/app.dump", size := 10, last_modified := 0 }
        targetType := TargetType.existing
        selectedDbId := "tgt"
        customDb := { host := "h", port := 5432, database := "d", username := "u",
                      password := "p", ssl_mode := "require" }
        confirmProdRestore := false
        sourceDbId := "src"
        databases := [{ id := "src", environment := Env.prod },
                      { id := "tgt", environment := Env.prod }]
        restorePending := false
        isPolling := false }
    getRestoreWarning st =
      some { type := WarningType.warning,
             message := "You are restoring to a production database. You must enter credentials manually and confirm this action." } ∧
    handleRestore st =
      RestoreAction.alerted "Please check the confirmation box to restore to production" ∧
    (∀ r : RestoreRequest, handleRestore st ≠ RestoreAction.mutate r) ∧
    handleRestore { st with confirmProdRestore := true } ≠
      RestoreAction.alerted "Please check the confirmation box to restore to production" ∧
    handleRestore { st with confirmProdRestore := true } ≠
      RestoreAction.alerted "Cannot restore a dev backup to production database" :=
  prod_restore_pending_confirmation _ _ (by decide) (by decide) (by decide) rfl

/-- C3: accepted restores into a prod target use manual credentials, never
stored ones.  In the code this shows as three facts: (i) the credential
mode is manual exactly for prod targets; (ii) an accepted prod restore
(source not dev, confirmation true) never issues a stored-credential
request on that click — it forces the target form to custom credentials —
and the follow-up click in the forced state sends the inline connection
parameters (`target_db`), never a stored target database id; (iii) every
request that does carry a stored target database id was issued while the
target environment was not prod, so stored credentials for a production
target are never auto-used. -/
theorem prod_restore_never_stored_credentials (st : RestoreState) (b : Backup)
    (ht : getTargetEnv st = Env.prod) (hs : getSourceEnv st ≠ Env.dev)
    (hc : st.confirmProdRestore = true) (hb : st.selectedBackup = some b)
    (hfields : ¬ (st.customDb.host = "" ∨ st.customDb.database = "" ∨
                  st.customDb.username = "" ∨ st.customDb.password = "")) :
    requiresManualCredentials st = true ∧
    handleRestore st = RestoreAction.switchToCustom ∧
    (∃ r : RestoreRequest,
      handleRestore { st with targetType := TargetType.custom } =
        RestoreAction.mutate r ∧
      r.target = RestoreTarget.inlineDb st.customDb ∧
      ∀ id : String, r.target ≠ RestoreTarget.storedId id) ∧
    (∀ st' : RestoreState, ∀ r : RestoreRequest, ∀ id : String,
      handleRestore st' = RestoreAction.mutate r →
      r.target = RestoreTarget.storedId id →
      getTargetEnv st' ≠ Env.prod) := by
  have hman : requiresManualCredentials st = true := by
    simp [requiresManualCredentials, ht]
  have hstep : handleRestore st = RestoreAction.switchToCustom :=
    handleRestore_prod_confirmed_switch st b hb ht hs hc
  have htc : getTargetEnv { st with targetType := TargetType.custom } ≠ Env.prod := by
    simp [getTargetEnv]
  refine ⟨hman, hstep, ?_, ?_⟩
  · exact ⟨_, handleRestore_custom_mutate { st with targetType := TargetType.custom } b
      hb htc rfl hfields, rfl, by simp⟩
  · intro st' r id hm htarget
    intro ht'
    have hman' : requiresManualCredentials st' = true := by
      simp [requiresManualCredentials, ht']
    have hex' : st'.targetType = TargetType.existing := targetEnv_prod_targetType st' ht'
    cases hb' : st'.selectedBackup with
    | none => simp [handleRestore, hb'] at hm
    | some b' =>
      by_cases hblock : getSourceEnv st' = Env.dev
      · simp [handleRestore, hb', hblock, ht'] at hm
      · by_cases hc' : st'.confirmProdRestore
        · simp [handleRestore, hb', hblock, ht', hc', hman', hex'] at hm
        · simp [handleRestore, hb', hblock, ht', hc'] at hm

/-- Witness for C3 at a concrete state: confirmed prod → prod restore with
a filled-in custom connection form. -/
theorem prod_restore_never_stored_credentials_witness :
    let st : RestoreState :=
      { selectedBackup := some { key := "backups/app.dump.enc", size := 10, last_modified := 0 }
        targetType := TargetType.existing
        selectedDbId := "tgt"
        customDb := { host := "db.example.com", port := 5432, database := "app",
                      username := "postgres", password := "pw", ssl_mode := "require" }
        confirmProdRestore := true
        sourceDbId := "src"
        databases := [{ id := "src", environment := Env.prod },
                      { id := "tgt", environment := Env.prod }]
        restorePending := false
        isPolling := false }
    requiresManualCredentials st = true ∧
    handleRestore st = RestoreAction.switchToCustom ∧
    (∃ r : RestoreRequest,
      handleRestore { st with targetType := TargetType.custom } =
        RestoreAction.mutate r ∧
      r.target = RestoreTarget.inlineDb st.customDb ∧
      ∀ id : String, r.target ≠ RestoreTarget.storedId id) ∧
    (∀ st' : RestoreState, ∀ r : RestoreRequest, ∀ id : String,
      handleRestore st' = RestoreAction.mutate r →
      r.target = RestoreTarget.storedId id →
      getTargetEnv st' ≠ Env.prod) :=
  prod_restore_never_stored_credentials _ _ (by decide) (by decide) (by decide) rfl
    (by decide)

/-- C4: with a dev or unknown target environment the restore is allowed
with no confirmation required — no warning is shown and the button is
enabled whenever a backup is selected and no request is in flight — and
both credential modes are accepted: an existing-database selection issues
the stored-credential request (`target_database_id`), a custom connection
issues the inline-credential request (`target_db`). -/
theorem nonprod_restore_allowed_both_modes (st : RestoreState) (b : Backup)
    (ht : getTargetEnv st = Env.dev ∨ getTargetEnv st = Env.unknown)
    (hb : st.selectedBackup = some b) :
    getRestoreWarning st = none ∧
    (st.restorePending = false → st.isPolling = false →
      restoreButtonDisabled st = false) ∧
    (st.targetType = TargetType.existing → st.selectedDbId ≠ "" →
      handleRestore st = RestoreAction.mutate
        { s3_key := b.key
          target := RestoreTarget.storedId st.selectedDbId
          is_encrypted := jsEndsWith b.key ".enc"
          source_database_id := if st.sourceDbId = "" then none else some st.sourceDbId
          confirm_prod_restore := false }) ∧
    (st.targetType = TargetType.custom →
      ¬ (st.customDb.host = "" ∨ st.customDb.database = "" ∨
         st.customDb.username = "" ∨ st.customDb.password = "") →
      handleRestore st = RestoreAction.mutate
        { s3_key := b.key
          target := RestoreTarget.inlineDb st.customDb
          is_encrypted := jsEndsWith b.key ".enc"
          source_database_id := if st.sourceDbId = "" then none else some st.sourceDbId
          confirm_prod_restore := false }) := by
  have htnp : getTargetEnv st ≠ Env.prod := by
    rcases ht with h | h <;> simp [h]
  have hw : getRestoreWarning st = none := by
    simp [getRestoreWarning, htnp]
  refine ⟨hw, ?_, ?_, ?_⟩
  · intro hp hpol
    simp [restoreButtonDisabled, hw, hb, hp, hpol]
  · intro hex hid
    exact handleRestore_existing_mutate st b hb htnp hex hid
  · intro hcust hfields
    exact handleRestore_custom_mutate st b hb htnp hcust hfields

/-- Witness for C4 at a concrete state: restore of a selected backup into
an existing dev database with stored credentials. -/
theorem nonprod_restore_allowed_both_modes_witness :
    let st : RestoreState :=
      { selectedBackup := some { key := "backups/app.dump", size := 10, last_modified := 0 }
        targetType := TargetType.existing
        selectedDbId := "tgt"
        customDb := { host := "h", port := 5432, database := "d", username := "u",
                      password := "p", ssl_mode := "require" }
        confirmProdRestore := false
        sourceDbId := "src"
        databases := [{ id := "src", environment := Env.prod },
                      { id := "tgt", environment := Env.dev }]
        restorePending := false
        isPolling := false }
    getRestoreWarning st = none ∧
    (st.restorePending = false → st.isPolling = false →
      restoreButtonDisabled st = false) ∧
    (st.targetType = TargetType.existing → st.selectedDbId ≠ "" →
      handleRestore st = RestoreAction.mutate
        { s3_key := "backups/app.dump"
          target := RestoreTarget.storedId st.selectedDbId
          is_encrypted := false
          source_database_id := some "src"
          confirm_prod_restore := false }) ∧
    (st.targetType = TargetType.custom →
      ¬ (st.customDb.host = "" ∨ st.customDb.database = "" ∨
         st.customDb.username = "" ∨ st.customDb.password = "") →
      handleRestore st = RestoreAction.mutate
        { s3_key := "backups/app.dump"
          target := RestoreTarget.inlineDb st.customDb
          is_encrypted := false
          source_database_id := some "src"
          confirm_prod_restore := false }) := by
  have h := nonprod_restore_allowed_both_modes
    { selectedBackup := some { key := "backups/app.dump", size := 10, last_modified := 0 }
      targetType := TargetType.existing
      selectedDbId := "tgt"
      customDb := { host := "h", port := 5432, database := "d", username := "u",
                    password := "p", ssl_mode := "require" }
      confirmProdRestore := false
      sourceDbId := "src"
      databases := [{ id := "src", environment := Env.prod },
                    { id := "tgt", environment := Env.dev }]
      restorePending := false
      isPolling := false }
    { key := "backups/app.dump", size := 10, last_modified := 0 }
    (Or.inl (by decide)) rfl
  have he : jsEndsWith "backups/app.dump" ".enc" = false := by decide
  simpa [he] using h

/-- C6: a custom inline target always has environment `unknown`, whatever
database its credentials actually address, so such a restore never shows
a warning, never requires manual-credential mode, and is never stopped by
the dev → prod block or by the production confirmation gate — even when
the declared source environment is dev. -/
theorem custom_target_env_always_unknown (st : RestoreState)
    (hcust : st.targetType = TargetType.custom) :
    getTargetEnv st = Env.unknown ∧
    getRestoreWarning st = none ∧
    requiresManualCredentials st = false ∧
    handleRestore st ≠
      RestoreAction.alerted "Cannot restore a dev backup to production database" ∧
    handleRestore st ≠
      RestoreAction.alerted "Please check the confirmation box to restore to production" := by
  have htu : getTargetEnv st = Env.unknown := by
    simp [getTargetEnv, hcust]
  have htnp : getTargetEnv st ≠ Env.prod := by simp [htu]
  have hw : getRestoreWarning st = none := by
    simp [getRestoreWarning, htnp]
  have hman : requiresManualCredentials st = false := by
    simp [requiresManualCredentials, htnp]
  refine ⟨htu, hw, hman, ?_, ?_⟩ <;>
  · cases hb : st.selectedBackup with
    | none => simp [handleRestore, hb]
    | some b =>
      by_cases hfields : st.customDb.host = "" ∨ st.customDb.database = "" ∨
          st.customDb.username = "" ∨ st.customDb.password = ""
      · simp [handleRestore, hb, htnp, hman, hcust, hfields]
      · simp [handleRestore_custom_mutate st b hb htnp hcust hfields]

/-- Witness for C6 at a concrete state: dev-declared source with custom
inline credentials that in fact address a production host. -/
theorem custom_target_env_always_unknown_witness :
    let st : RestoreState :=
      { selectedBackup := some { key := "backups/dev.dump", size := 10, last_modified := 0 }
        targetType := TargetType.custom
        selectedDbId := ""
        customDb := { host := "prod-db.example.com", port := 5432, database := "app",
                      username := "postgres", password := "pw", ssl_mode := "require" }
        confirmProdRestore := false
        sourceDbId := "src"
        databases := [{ id := "src", environment := Env.dev }]
        restorePending := false
        isPolling := false }
    getTargetEnv st = Env.unknown ∧
    getRestoreWarning st = none ∧
    requiresManualCredentials st = false ∧
    handleRestore st ≠
      RestoreAction.alerted "Cannot restore a dev backup to production database" ∧
    handleRestore st ≠
      RestoreAction.alerted "Please check the confirmation box to restore to production" :=
  custom_target_env_always_unknown _ rfl

/-- An HTTP request issued through the axios instance of
src/frontend/src/lib/api.ts (method, path under the default empty
`VITE_API_URL` so the instance's base URL is `/api`, and optional JSON
body). -/
structure ApiRequest where
  method : String
  path : String
  body : Option String
deriving DecidableEq, Repr

/-- `runBackup` of src/frontend/src/lib/api.ts: a single `dbId` parameter,
issuing `api.post` with no request body. -/
def runBackup (dbId : String) : ApiRequest :=
  { method := "POST", path := "/api/backups/run/" ++ dbId, body := none }

/-- The `backupMutation` call site of src/frontend/src/pages/Databases.tsx:
`runBackup(dbId, { customName, localOnly })`.  `runBackup`'s signature
takes only `dbId`, so JavaScript evaluates and then drops the options
argument; the issued request is a function of `dbId` alone. -/
def backupMutationRequest (dbId : String) (customName : Option String)
    (localOnly : Bool) : ApiRequest :=
  runBackup dbId

/-- `handleRunBackup` of src/frontend/src/pages/Databases.tsx: trims the
dialog's name field, mapping an all-whitespace name to `undefined`, and
fires the mutation. -/
def handleRunBackup (dbId backupName : String) (localOnly : Bool) : ApiRequest :=
  backupMutationRequest dbId
    (if backupName.trim = "" then none else some backupName.trim) localOnly

/-- C5: every manual backup started from the Databases-page dialog issues
POST /api/backups/run/{dbId} with no request body, whatever custom name
and storage choice were made in the dialog — the options never reach the
server. -/
theorem manual_backup_options_discarded :
    (∀ (dbId backupName : String) (localOnly : Bool),
      handleRunBackup dbId backupName localOnly =
        { method := "POST", path := "/api/backups/run/" ++ dbId, body := none }) ∧
    (∀ (dbId : String) (n₁ n₂ : Option String) (l₁ l₂ : Bool),
      backupMutationRequest dbId n₁ l₁ = backupMutationRequest dbId n₂ l₂) := by
  exact ⟨fun _ _ _ => rfl, fun _ _ _ _ _ => rfl⟩

/-- The type filter of the Restore-page backup list. -/
inductive FilterOption
  | all
  | encrypted
  | unencrypted
deriving DecidableEq, Repr

/-- The sort order of the Restore-page backup list. -/
inductive SortOption
  | newest
  | oldest
  | largest
  | smallest
  | name
deriving DecidableEq, Repr

/-- Does the character list `s` start with `pat`?  (Helper for the
JavaScript `includes` search used by the backup list.) -/
def charsStartWith : List Char → List Char → Bool
  | _, [] => true
  | [], _ :: _ => false
  | c :: cs, p :: ps => c == p && charsStartWith cs ps

/-- JavaScript `String.prototype.includes`: does `s` contain `pat` as a
contiguous substring? -/
def charsContain : List Char → List Char → Bool
  | [], pat => pat.isEmpty
  | c :: cs, pat => charsStartWith (c :: cs) pat || charsContain cs pat

/-- JavaScript `s.includes(pat)` on strings. -/
def jsIncludes (s pat : String) : Bool :=
  charsContain s.data pat.data

/-- The numeric comparator passed to `result.sort` in `filteredBackups`,
per sort option (the `name` case models `localeCompare` by code-point
order). -/
def backupCompare (sortBy : SortOption) (a b : Backup) : Int :=
  match sortBy with
  | SortOption.newest => b.last_modified - a.last_modified
  | SortOption.oldest => a.last_modified - b.last_modified
  | SortOption.largest => b.size - a.size
  | SortOption.smallest => a.size - b.size
  | SortOption.name => if a.key < b.key then -1 else if b.key < a.key then 1 else 0

/-- `filteredBackups` of Restore.tsx: the search filter on the lowercased
key, then the encrypted/unencrypted type filter on the `.enc` suffix, then
the selected sort. -/
def filteredBackups (backups : List Backup) (searchQuery : String)
    (sortBy : SortOption) (filterBy : FilterOption) : List Backup :=
  let r1 :=
    if searchQuery ≠ "" then
      backups.filter (fun b => jsIncludes b.key.toLower searchQuery.toLower)
    else backups
  let r2 :=
    match filterBy with
    | FilterOption.all => r1
    | FilterOption.encrypted => r1.filter (fun b => jsEndsWith b.key ".enc")
    | FilterOption.unencrypted => r1.filter (fun b => ! jsEndsWith b.key ".enc")
  r2.mergeSort (fun a b => backupCompare sortBy a b ≤ 0)

/-- Every request issued by `handleRestore` computes its encryption flag
as the `.enc` suffix test on the very key it ships. -/
theorem handleRestore_is_encrypted_suffix (st : RestoreState)
    (r : RestoreRequest) (hm : handleRestore st = RestoreAction.mutate r) :
    r.is_encrypted = jsEndsWith r.s3_key ".enc" := by
  cases hb : st.selectedBackup with
  | none => simp [handleRestore, hb] at hm
  | some b =>
    simp only [handleRestore, hb] at hm
    repeat' split at hm
    all_goals first
      | (cases hm; rfl)
      | simp at hm

/-- C7: the restore stage classifies an artifact as encrypted exactly by
the reserved `.enc` suffix of its storage key: a backup survives the
encrypted (resp. unencrypted) type filter iff it survives the unfiltered
pipeline and its key ends (resp. does not end) in `.enc`, and the
`is_encrypted` flag of every issued restore request equals the suffix test
on the shipped key — no other lookup is consulted. -/
theorem encrypted_classified_by_enc_suffix (backups : List Backup)
    (q : String) (sb : SortOption) (b : Backup) :
    (b ∈ filteredBackups backups q sb FilterOption.encrypted ↔
      b ∈ filteredBackups backups q sb FilterOption.all ∧
        jsEndsWith b.key ".enc" = true) ∧
    (b ∈ filteredBackups backups q sb FilterOption.unencrypted ↔
      b ∈ filteredBackups backups q sb FilterOption.all ∧
        jsEndsWith b.key ".enc" = false) ∧
    (∀ (st : RestoreState) (r : RestoreRequest),
      handleRestore st = RestoreAction.mutate r →
      r.is_encrypted = jsEndsWith r.s3_key ".enc") := by
  refine ⟨?_, ?_, fun st r hm => handleRestore_is_encrypted_suffix st r hm⟩ <;>
    simp [filteredBackups, List.mem_mergeSort, List.mem_filter, and_assoc]

/-- Witness for C7 at concrete inputs: an encrypted and an unencrypted key
run through the type filters, and a concrete issued request. -/
theorem encrypted_classified_by_enc_suffix_witness :
    let enc : Backup := { key := "backups/a.dump.enc", size := 1, last_modified := 5 }
    let plain : Backup := { key := "backups/b.dump", size := 2, last_modified := 3 }
    (enc ∈ filteredBackups [enc, plain] "" SortOption.newest FilterOption.encrypted ↔
      enc ∈ filteredBackups [enc, plain] "" SortOption.newest FilterOption.all ∧
        jsEndsWith enc.key ".enc" = true) ∧
    (enc ∈ filteredBackups [enc, plain] "" SortOption.newest FilterOption.unencrypted ↔
      enc ∈ filteredBackups [enc, plain] "" SortOption.newest FilterOption.all ∧
        jsEndsWith enc.key ".enc" = false) ∧
    (∀ (st : RestoreState) (r : RestoreRequest),
      handleRestore st = RestoreAction.mutate r →
      r.is_encrypted = jsEndsWith r.s3_key ".enc") :=
  encrypted_classified_by_enc_suffix _ _ _ _

/-- A restore status response: the job status string plus its optional
error message, as consumed by the poller. -/
structure RestoreStatus where
  status : String
  error : Option String
deriving DecidableEq, Repr

/-- `maxAttempts` of `pollForStatus` in Restore.tsx. -/
def maxAttempts : Nat := 120

/-- The poll interval of `pollForStatus` in Restore.tsx, in
milliseconds (`setTimeout(resolve, 5000)`). -/
def pollDelayMs : Nat := 5000

/-- The four exit points of `pollForStatus`: the terminal result set by
`setRestoreResult` in each branch — success with the completed status,
job failure with the job's error (defaulted to "Restore failed"), the
catch branch when a status request throws, and the timeout after the
attempt bound is exhausted. -/
inductive PollOutcome
  | completed (s : RestoreStatus)
  | jobFailed (err : String)
  | pollError
  | timedOut
deriving DecidableEq, Repr

/-- The `while (attempts < maxAttempts)` loop of `pollForStatus`:
`respond i` is the response of the i-th `getRestoreStatus` call (an
`Except.error` models a thrown request, caught by the catch branch),
`fuel` counts the attempts remaining. -/
def pollSteps (respond : Nat → Except Unit RestoreStatus) :
    Nat → Nat → PollOutcome
  | _, 0 => PollOutcome.timedOut
  | attempt, fuel + 1 =>
    match respond attempt with
    | Except.error _ => PollOutcome.pollError
    | Except.ok s =>
      if s.status = "completed" then PollOutcome.completed s
      else if s.status = "failed" then
        PollOutcome.jobFailed (s.error.getD "Restore failed")
      else pollSteps respond (attempt + 1) fuel

/-- `pollForStatus` of Restore.tsx as a function of the sequence of status
responses. -/
def pollForStatus (respond : Nat → Except Unit RestoreStatus) : PollOutcome :=
  pollSteps respond 0 maxAttempts

/-- The number of `getRestoreStatus` calls the loop actually performs. -/
def pollCount (respond : Nat → Except Unit RestoreStatus) :
    Nat → Nat → Nat
  | _, 0 => 0
  | attempt, fuel + 1 =>
    match respond attempt with
    | Except.error _ => 1
    | Except.ok s =>
      if s.status = "completed" then 1
      else if s.status = "failed" then 1
      else 1 + pollCount respond (attempt + 1) fuel

/-- Total status polls performed by `pollForStatus`. -/
def pollsPerformed (respond : Nat → Except Unit RestoreStatus) : Nat :=
  pollCount respond 0 maxAttempts

/-- A response that keeps the loop going: a successful status request
whose status is neither terminal value. -/
def isNonTerminalResp : Except Unit RestoreStatus → Bool
  | Except.ok s => ! (s.status == "completed") && ! (s.status == "failed")
  | Except.error _ => false

/-- The loop performs at most `fuel` polls. -/
theorem pollCount_le (respond : Nat → Except Unit RestoreStatus) :
    ∀ (fuel attempt : Nat), pollCount respond attempt fuel ≤ fuel := by
  intro fuel
  induction fuel with
  | zero => intro attempt; simp [pollCount]
  | succ n ih =>
    intro attempt
    simp only [pollCount]
    cases respond attempt with
    | error e => exact Nat.succ_le_succ (Nat.zero_le n)
    | ok s =>
      by_cases h1 : s.status = "completed"
      · simp [h1]
      · by_cases h2 : s.status = "failed"
        · simp [h1, h2]
        · have := ih (attempt + 1)
          simp only [h1, h2, if_false]
          omega

/-- If every response from `attempt` on (within the fuel) is
non-terminal, the loop exhausts its fuel and times out. -/
theorem pollSteps_all_nonterminal (respond : Nat → Except Unit RestoreStatus) :
    ∀ (fuel attempt : Nat),
      (∀ i : Nat, i < fuel → isNonTerminalResp (respond (attempt + i)) = true) →
      pollSteps respond attempt fuel = PollOutcome.timedOut := by
  intro fuel
  induction fuel with
  | zero => intro attempt h; simp [pollSteps]
  | succ n ih =>
    intro attempt h
    have h0 := h 0 (Nat.succ_pos n)
    simp only [Nat.add_zero] at h0
    simp only [pollSteps]
    cases hr : respond attempt with
    | error e => rw [hr] at h0; simp [isNonTerminalResp] at h0
    | ok s =>
      rw [hr] at h0
      simp only [isNonTerminalResp, Bool.and_eq_true, Bool.not_eq_true',
        beq_eq_false_iff_ne, ne_eq] at h0
      simp [h0.1, h0.2]
      apply ih
      intro i hi
      have hnext := h (i + 1) (by omega)
      have harg : attempt + (i + 1) = attempt + 1 + i := by omega
      rwa [harg] at hnext

/-- If the first `k` responses are non-terminal and response `k` is
terminal (or throws), the loop stops right there: it returns the matching
outcome having performed exactly `k + 1` polls. -/
theorem pollSteps_first_terminal (respond : Nat → Except Unit RestoreStatus) :
    ∀ (k fuel attempt : Nat), k < fuel →
      (∀ i : Nat, i < k → isNonTerminalResp (respond (attempt + i)) = true) →
      isNonTerminalResp (respond (attempt + k)) = false →
      pollSteps respond attempt fuel =
        (match respond (attempt + k) with
         | Except.error _ => PollOutcome.pollError
         | Except.ok s =>
           if s.status = "completed" then PollOutcome.completed s
           else PollOutcome.jobFailed (s.error.getD "Restore failed")) ∧
      pollCount respond attempt fuel = k + 1 := by
  intro k
  induction k with
  | zero =>
    intro fuel attempt hk hpre hterm
    obtain ⟨f, rfl⟩ : ∃ f, fuel = f + 1 := ⟨fuel - 1, by omega⟩
    simp only [Nat.add_zero] at hterm ⊢
    simp only [pollSteps, pollCount]
    cases hr : respond attempt with
    | error e => simp
    | ok s =>
      rw [hr] at hterm
      by_cases h1 : s.status = "completed"
      · simp [h1]
      · by_cases h2 : s.status = "failed"
        · simp [h1, h2]
        · exfalso
          simp [isNonTerminalResp, h1, h2] at hterm
  | succ n ih =>
    intro fuel attempt hk hpre hterm
    obtain ⟨f, rfl⟩ : ∃ f, fuel = f + 1 := ⟨fuel - 1, by omega⟩
    have h0 := hpre 0 (Nat.succ_pos n)
    simp only [Nat.add_zero] at h0
    simp only [pollSteps, pollCount]
    cases hr : respond attempt with
    | error e => rw [hr] at h0; simp [isNonTerminalResp] at h0
    | ok s =>
      rw [hr] at h0
      simp only [isNonTerminalResp, Bool.and_eq_true, Bool.not_eq_true',
        beq_eq_false_iff_ne, ne_eq] at h0
      simp only [h0.1, h0.2]
      have hpre' : ∀ i : Nat, i < n →
          isNonTerminalResp (respond (attempt + 1 + i)) = true := by
        intro i hi
        have hnext := hpre (i + 1) (by omega)
        have harg : attempt + (i + 1) = attempt + 1 + i := by omega
        rwa [harg] at hnext
      have hterm' : isNonTerminalResp (respond (attempt + 1 + n)) = false := by
        have harg : attempt + 1 + n = attempt + (n + 1) := by omega
        rw [harg]; exact hterm
      have hih := ih f (attempt + 1) (by omega) hpre' hterm'
      have harg : attempt + 1 + n = attempt + (n + 1) := by omega
      rw [harg] at hih
      simp [h0.1, h0.2]
      exact ⟨hih.1, by omega⟩

/-- C8: the client-side poller terminates within its bound: it performs
at most 120 status polls at 5000 ms intervals (120 × 5000 ms = 10
minutes), stops at the first terminal status observed — completed or
failed — having polled exactly k + 1 times when the first terminal
response is the k-th, times out when all 120 responses are
non-terminal, and the timeout outcome is a different outcome from every
job-failure outcome. -/
theorem poller_bounded_and_terminal (respond : Nat → Except Unit RestoreStatus)
    (k : Nat) (s : RestoreStatus) (hk : k < maxAttempts)
    (hpre : ∀ i : Nat, i < k → isNonTerminalResp (respond i) = true)
    (hok : respond k = Except.ok s) :
    pollsPerformed respond ≤ maxAttempts ∧
    maxAttempts = 120 ∧ pollDelayMs = 5000 ∧ maxAttempts * pollDelayMs = 600000 ∧
    (s.status = "completed" →
      pollForStatus respond = PollOutcome.completed s ∧
      pollsPerformed respond = k + 1) ∧
    (s.status = "failed" →
      pollForStatus respond = PollOutcome.jobFailed (s.error.getD "Restore failed") ∧
      pollsPerformed respond = k + 1) ∧
    (∀ respond2 : Nat → Except Unit RestoreStatus,
      (∀ i : Nat, i < maxAttempts → isNonTerminalResp (respond2 i) = true) →
      pollForStatus respond2 = PollOutcome.timedOut) ∧
    (∀ err : String, PollOutcome.timedOut ≠ PollOutcome.jobFailed err) := by
  refine ⟨pollCount_le respond maxAttempts 0, rfl, rfl, rfl, ?_, ?_, ?_, ?_⟩
  · intro hc
    have hterm : isNonTerminalResp (respond (0 + k)) = false := by
      simp [Nat.zero_add, hok, isNonTerminalResp, hc]
    have hpre' : ∀ i : Nat, i < k → isNonTerminalResp (respond (0 + i)) = true := by
      intro i hi; simpa using hpre i hi
    have h := pollSteps_first_terminal respond k maxAttempts 0 hk hpre' hterm
    rw [Nat.zero_add, hok] at h
    simp only [hc, if_pos rfl] at h
    exact ⟨h.1, h.2⟩
  · intro hf
    have hnc : s.status ≠ "completed" := by simp [hf]
    have hterm : isNonTerminalResp (respond (0 + k)) = false := by
      simp [Nat.zero_add, hok, isNonTerminalResp, hf]
    have hpre' : ∀ i : Nat, i < k → isNonTerminalResp (respond (0 + i)) = true := by
      intro i hi; simpa using hpre i hi
    have h := pollSteps_first_terminal respond k maxAttempts 0 hk hpre' hterm
    rw [Nat.zero_add, hok] at h
    simp only [hnc, if_false] at h
    exact ⟨h.1, h.2⟩
  · intro respond2 hall
    apply pollSteps_all_nonterminal
    intro i hi
    simpa using hall i hi
  · intro err h
    cases h

/-- Witness for C8: a job that reports running twice and completes on the
third poll. -/
theorem poller_bounded_and_terminal_witness :
    let respond : Nat → Except Unit RestoreStatus := fun i =>
      Except.ok (if i < 2 then { status := "running", error := none }
                 else { status := "completed", error := none })
    pollsPerformed respond ≤ maxAttempts ∧
    maxAttempts = 120 ∧ pollDelayMs = 5000 ∧ maxAttempts * pollDelayMs = 600000 ∧
    (({ status := "completed", error := none } : RestoreStatus).status = "completed" →
      pollForStatus respond =
        PollOutcome.completed { status := "completed", error := none } ∧
      pollsPerformed respond = 2 + 1) ∧
    (({ status := "completed", error := none } : RestoreStatus).status = "failed" →
      pollForStatus respond =
        PollOutcome.jobFailed
          (({ status := "completed", error := none } : RestoreStatus).error.getD "Restore failed") ∧
      pollsPerformed respond = 2 + 1) ∧
    (∀ respond2 : Nat → Except Unit RestoreStatus,
      (∀ i : Nat, i < maxAttempts → isNonTerminalResp (respond2 i) = true) →
      pollForStatus respond2 = PollOutcome.timedOut) ∧
    (∀ err : String, PollOutcome.timedOut ≠ PollOutcome.jobFailed err) :=
  poller_bounded_and_terminal _ 2 { status := "completed", error := none }
    (by decide)
    (by intro i hi
        interval_cases i <;> decide)
    (by simp)

/-- Byte length of the salt prepended to an encrypted artifact (spec:
"Salt is randomly generated per artifact, 16 bytes minimum"). -/
def saltLen : Nat := 16

/-- Byte length of the AES-GCM nonce prepended after the salt. -/
def nonceLen : Nat := 12

/-- Byte length of the AES-GCM authentication tag appended after the
ciphertext. -/
def tagLen : Nat := 16

/-- Little-endian expansion of a natural number into `len` bytes. -/
def natToBytes (len n : Nat) : List Nat :=
  (List.range len).map (fun i => n / 256 ^ i % 256)

/-- Fold a byte list into a single natural number seed. -/
def bytesSeed (bs : List Nat) : Nat :=
  bs.foldl (fun a b => a * 256 + b + 1) 0

/-- Modelled from the spec: `deriveKey(passphrase, salt) -> key` of the
Crypto Engine (section 4.2), whose implementation is not under src/.  The
PBKDF2-HMAC key derivation is modelled as a deterministic mixing fold of
the passphrase and salt bytes into a 256-bit value; the round-trip
property depends only on its determinism. -/
def deriveKey (passphrase salt : List Nat) : Nat :=
  (passphrase ++ salt).foldl (fun a b => (a * 131 + b + 1) % 2 ^ 256) 7

/-- Modelled from the spec: the AES-256-GCM keystream for a given key and
nonce, as a deterministic byte sequence; the cipher's CTR keystream is
modelled by a byte-valued mixing function. -/
def keystream (key : Nat) (nonce : List Nat) (n : Nat) : List Nat :=
  (List.range n).map (fun i => (key + bytesSeed nonce * 31 + i * 97) % 256)

/-- Modelled from the spec: the GCM authentication tag over the
ciphertext, keyed by the derived key and nonce. -/
def macTag (key : Nat) (nonce ct : List Nat) : List Nat :=
  natToBytes tagLen
    ((key + bytesSeed nonce +
      ct.foldl (fun a b => (a * 257 + b + 1) % 2 ^ 128) 0) % 2 ^ 128)

/-- The error taxonomy of the Crypto Engine's decrypt: an authentication
failure (wrong passphrase or corrupted artifact). -/
inductive CryptoError
  | authenticationFailed
deriving DecidableEq, Repr

/-- Modelled from the spec: `encrypt(plaintextStream, passphrase) ->
ciphertextStream` of the Crypto Engine (section 4.2), not under src/:
generate a salt and nonce (taken here as explicit entropy arguments),
derive the key, encrypt by keystream, and emit the self-describing stream
`[salt][nonce][ciphertext][tag]`. -/
def encrypt (plaintext passphrase salt nonce : List Nat) : List Nat :=
  let key := deriveKey passphrase salt
  let ct := List.zipWith Nat.xor plaintext (keystream key nonce plaintext.length)
  salt ++ nonce ++ ct ++ macTag key nonce ct

/-- Modelled from the spec: `decrypt(ciphertextStream, passphrase) ->
plaintextStream` of the Crypto Engine (section 4.2), not under src/:
read the leading `[salt][nonce]`, re-derive the key, verify the trailing
authentication tag and fail with `AuthenticationError` unless it
matches, otherwise invert the keystream. -/
def decrypt (stream passphrase : List Nat) :
    Except CryptoError (List Nat) :=
  let salt := stream.take saltLen
  let rest := stream.drop saltLen
  let nonce := rest.take nonceLen
  let body := rest.drop nonceLen
  let ct := body.take (body.length - tagLen)
  let tag := body.drop (body.length - tagLen)
  let key := deriveKey passphrase salt
  if tagLen ≤ body.length ∧ tag = macTag key nonce ct then
    Except.ok (List.zipWith Nat.xor ct (keystream key nonce ct.length))
  else
    Except.error CryptoError.authenticationFailed

/-- XOR-ing twice with the same (sufficiently long) keystream is the
identity. -/
theorem zipWith_xor_cancel :
    ∀ (l ks : List Nat), l.length ≤ ks.length →
      List.zipWith Nat.xor (List.zipWith Nat.xor l ks) ks = l := by
  intro l
  induction l with
  | nil => intro ks h; simp
  | cons a l ih =>
    intro ks h
    cases ks with
    | nil => simp at h
    | cons b ks =>
      simp only [List.zipWith_cons_cons, List.cons.injEq]
      exact ⟨Nat.xor_cancel_right b a, ih ks (by simpa using h)⟩

/-- C9: decrypting the Crypto Engine's output with the same passphrase
recovers the plaintext exactly: for every plaintext, passphrase and
per-artifact salt and nonce of the prescribed sizes,
`decrypt (encrypt plaintext passphrase salt nonce) passphrase` succeeds
with the original plaintext, the salt and nonce being recovered from the
self-describing stream itself. -/
theorem decrypt_encrypt_roundtrip (plaintext passphrase salt nonce : List Nat)
    (hsalt : salt.length = saltLen) (hnonce : nonce.length = nonceLen) :
    decrypt (encrypt plaintext passphrase salt nonce) passphrase =
      Except.ok plaintext := by
  have hks : (keystream (deriveKey passphrase salt) nonce plaintext.length).length
      = plaintext.length := by
    simp [keystream]
  have hct : (List.zipWith Nat.xor plaintext
      (keystream (deriveKey passphrase salt) nonce plaintext.length)).length
      = plaintext.length := by
    simp [List.length_zipWith, hks]
  have htag : (macTag (deriveKey passphrase salt) nonce
      (List.zipWith Nat.xor plaintext
        (keystream (deriveKey passphrase salt) nonce plaintext.length))).length
      = tagLen := by
    simp [macTag, natToBytes]
  simp only [encrypt, decrypt]
  rw [List.append_assoc, List.append_assoc]
  rw [List.take_left' hsalt, List.drop_left' hsalt]
  rw [List.take_left' hnonce, List.drop_left' hnonce]
  rw [List.length_append, htag, Nat.add_sub_cancel]
  rw [List.take_left' rfl, List.drop_left' rfl]
  rw [if_pos ⟨Nat.le_add_left tagLen _, rfl⟩]
  rw [hct]
  rw [zipWith_xor_cancel plaintext _ (by rw [hks])]

/-- Witness for C9 at concrete bytes: a 5-byte plaintext, a passphrase,
and fixed 16-byte salt and 12-byte nonce. -/
theorem decrypt_encrypt_roundtrip_witness :
    decrypt
      (encrypt [104, 101, 108, 108, 111] [115, 51, 99, 114, 101, 116]
        [0, 1, 2, 3, 4, 5, 6, 7, 8, 9, 10, 11, 12, 13, 14, 15]
        [20, 21, 22, 23, 24, 25, 26, 27, 28, 29, 30, 31])
      [115, 51, 99, 114, 101, 116] =
      Except.ok [104, 101, 108, 108, 111] :=
  decrypt_encrypt_roundtrip _ _ _ _ (by decide) (by decide)

/-- A completed backup artifact as the Retention Planner sees it:
identity and creation timestamp (seconds since epoch). -/
structure Artifact where
  id : Nat
  created : Nat
deriving DecidableEq, Repr

/-- The global retention policy: daily/weekly/monthly keep counts. -/
structure RetentionPolicy where
  keep_daily : Nat
  keep_weekly : Nat
  keep_monthly : Nat
deriving DecidableEq, Repr

/-- Calendar-day bucket of an artifact (day index of its timestamp). -/
def dayIdx (a : Artifact) : Nat := a.created / 86400

/-- Week bucket of an artifact.  Modelled from the spec: the planner
groups "one per ISO week"; the grouping is modelled as an integer week
index of the day — the idempotence property is insensitive to the exact
calendar boundaries. -/
def weekIdx (a : Artifact) : Nat := dayIdx a / 7

/-- Month bucket of an artifact.  Modelled from the spec: "one per
calendar month", modelled as an integer month index of the day. -/
def monthIdx (a : Artifact) : Nat := dayIdx a / 30

/-- Is bucket `k` among the `n` most recent buckets that have artifacts?
Bucket indexes grow with time, so `k` qualifies iff some artifact lies in
it and fewer than `n` distinct occupied buckets are more recent. -/
def isTopBucket (key : Artifact → Nat) (n : Nat) (arts : List Artifact)
    (k : Nat) : Bool :=
  decide (k ∈ arts.map key) &&
  decide (((arts.map key).dedup.filter (fun j => k < j)).length < n)

/-- Is `a` a newest artifact of its bucket (the spec's tie-break: "keep
the most recently created")? -/
def newestInBucket (key : Artifact → Nat) (arts : List Artifact)
    (a : Artifact) : Bool :=
  decide (∀ b ∈ arts, key b = key a → b.created ≤ a.created)

/-- One retention rule: keep the newest artifact of each of the `n` most
recent occupied buckets. -/
def keptByRule (key : Artifact → Nat) (n : Nat) (arts : List Artifact)
    (a : Artifact) : Bool :=
  isTopBucket key n arts (key a) && newestInBucket key arts a

/-- Modelled from the spec: the Retention Planner's keep decision
(section 4.4), whose implementation is not under src/: an artifact
survives iff the daily, weekly or monthly rule selects it. -/
def keptArtifact (p : RetentionPolicy) (arts : List Artifact)
    (a : Artifact) : Bool :=
  keptByRule dayIdx p.keep_daily arts a ||
  keptByRule weekIdx p.keep_weekly arts a ||
  keptByRule monthIdx p.keep_monthly arts a

/-- The keep-set computed by one cleanup pass: the artifacts the planner
preserves, in list order. -/
def keepSet (p : RetentionPolicy) (arts : List Artifact) : List Artifact :=
  arts.filter (fun a => keptArtifact p arts a)

/-- The artifacts one cleanup pass deletes. -/
def cleanupDeletions (p : RetentionPolicy) (arts : List Artifact) :
    List Artifact :=
  arts.filter (fun a => ! keptArtifact p arts a)

/-- An artifact a rule keeps stays kept by that rule in any subset of the
artifact list that still contains it: its bucket only loses more-recent
competitors and it stays newest in its bucket. -/
theorem keptByRule_subset (key : Artifact → Nat) (n : Nat)
    (arts s : List Artifact) (hsub : s ⊆ arts) (a : Artifact) (ha : a ∈ s)
    (hkept : keptByRule key n arts a = true) :
    keptByRule key n s a = true := by
  simp only [keptByRule, isTopBucket, newestInBucket, Bool.and_eq_true,
    decide_eq_true_eq] at hkept ⊢
  obtain ⟨⟨hmem, hcount⟩, hnewest⟩ := hkept
  refine ⟨⟨List.mem_map_of_mem key ha, ?_⟩, fun b hb hk => hnewest b (hsub hb) hk⟩
  have hsubsetF : ((s.map key).dedup.filter (fun j => key a < j)) ⊆
      ((arts.map key).dedup.filter (fun j => key a < j)) := by
    intro x hx
    rw [List.mem_filter] at hx ⊢
    refine ⟨?_, hx.2⟩
    rw [List.mem_dedup] at hx ⊢
    obtain ⟨b, hb, rfl⟩ := List.mem_map.mp hx.1
    exact List.mem_map_of_mem key (hsub hb)
  have hnd : ((s.map key).dedup.filter (fun j => key a < j)).Nodup :=
    (List.nodup_dedup _).filter _
  exact Nat.lt_of_le_of_lt ((hnd.subperm hsubsetF).length_le) hcount

/-- Everything in the keep-set is still kept when the planner is applied
to the keep-set itself. -/
theorem keptArtifact_stable (p : RetentionPolicy) (arts : List Artifact)
    (a : Artifact) (ha : a ∈ keepSet p arts) :
    keptArtifact p (keepSet p arts) a = true := by
  have hsub : keepSet p arts ⊆ arts := fun x hx => (List.mem_filter.mp hx).1
  have hmem := (List.mem_filter.mp ha).1
  have hkept := (List.mem_filter.mp ha).2
  simp only [keptArtifact, Bool.or_eq_true] at hkept ⊢
  rcases hkept with (h | h) | h
  · exact Or.inl (Or.inl (keptByRule_subset _ _ arts _ hsub a ha h))
  · exact Or.inl (Or.inr (keptByRule_subset _ _ arts _ hsub a ha h))
  · exact Or.inr (keptByRule_subset _ _ arts _ hsub a ha h)

/-- C10: the Retention Planner is idempotent: with no new artifacts
between the passes, the second pass computes the identical keep-set — the
keep-set of the keep-set is the keep-set itself — and deletes nothing. -/
theorem retention_planner_idempotent (p : RetentionPolicy)
    (arts : List Artifact) :
    keepSet p (keepSet p arts) = keepSet p arts ∧
    cleanupDeletions p (keepSet p arts) = [] := by
  have hall : ∀ a ∈ keepSet p arts, keptArtifact p (keepSet p arts) a = true :=
    fun a ha => keptArtifact_stable p arts a ha
  constructor
  · exact List.filter_eq_self.mpr hall
  · simp only [cleanupDeletions, List.filter_eq_nil_iff]
    intro a ha
    simp [hall a ha]

end BackupManager
